import Mathlib

/-!
Shallow embedding of the extracto-storage-service extraction and
versioned-upsert engine.

Conventions of the embedding:
* JavaScript runtime values that flow through the parsers are modelled by the
  inductive type `Json` (scraped payloads are JSON, so `undefined` only arises
  from a missing property lookup and is modelled by `Option.none` at the
  lookup sites).
* JavaScript numbers are modelled by `ℚ`; a possibly-NaN number is modelled by
  `Option ℚ` with `none` for NaN.  JavaScript's shortest-roundtrip float
  printing is modelled exactly for numbers with a finite decimal expansion,
  which covers every number a claim evaluates.
* Timestamps (`new Date()` / `Date.now()`) are modelled by a `Nat` parameter
  `now` threaded through the operations.
* Code that can throw is modelled in `Except`; a `try`/`catch` is a `match` on
  the `Except` value.
* The MongoDB collections are modelled as association lists from `uniqueKey`
  to the stored document; `updateOne`/`insertOne` keyed on `uniqueKey` is the
  `storePut` replace-or-add operation.

Definitions keep the names of the TypeScript sources
(`src/services/storage.service.ts`, `src/services/extraction-strategies/*`,
`src/services/product-extractor.service.ts`,
`src/services/real-estate-extractor.service.ts`,
`src/services/real-estate-strategies/urbania.strategy.ts`,
`src/services/product-storage.service.ts`,
`src/services/real-estate-storage.service.ts`).
-/

/-- JavaScript/JSON runtime values flowing through the extraction layer. -/
inductive Json where
  | null : Json
  | bool (b : Bool) : Json
  | num (q : ℚ) : Json
  | str (s : String) : Json
  | arr (elems : List Json) : Json
  | obj (fields : List (String × Json)) : Json

/-- JavaScript truthiness of a value (`if (v)`): `null`, `false`, `0`, `""`
are falsy; every string with content, nonzero number, array and object is
truthy.  (NaN never reaches a truthiness test in the modelled code.) -/
def truthy : Json → Bool
  | .null => false
  | .bool b => b
  | .num q => q != 0
  | .str s => s != ""
  | .arr _ => true
  | .obj _ => true

/-- Truthiness of an optional value; a missing property (`undefined`) is
falsy. -/
def truthyO : Option Json → Bool
  | none => false
  | some v => truthy v

/-- Property lookup `v[k]`: `some` on an object that has the key (a field
holding JSON `null` is present, mirroring `x !== undefined` being true for a
null field), `none` (undefined) otherwise. -/
def jget : Json → String → Option Json
  | .obj fields, k => fields.lookup k
  | _, _ => none

/-- Two-step optional chain `v?.a?.b`. -/
def jget2 (v : Json) (k1 k2 : String) : Option Json :=
  (jget v k1).bind (fun w => jget w k2)

/-- Three-step optional chain `v?.a?.b?.c`. -/
def jget3 (v : Json) (k1 k2 k3 : String) : Option Json :=
  ((jget v k1).bind (fun w => jget w k2)).bind (fun w => jget w k3)

/-- JavaScript `a || b` where `a` is a property lookup (possibly undefined)
and `b` is the already-evaluated default: the lookup's value when truthy,
otherwise the default. -/
def jsOr (a : Option Json) (b : Json) : Json :=
  match a with
  | some v => if truthy v then v else b
  | none => b

/-- Decimal digit character. -/
def digitChar (n : Nat) : Char :=
  Char.ofNat (48 + n)

/-- Decimal representation of a natural number (the digits JavaScript would
print for an integer). -/
def natRepr (n : Nat) : String :=
  if _h : n < 10 then String.mk [digitChar n]
  else natRepr (n / 10) ++ String.mk [digitChar (n % 10)]
  decreasing_by exact Nat.div_lt_self (Nat.pos_of_ne_zero (by omega)) (by omega)

/-- Left-pad a string with zeros to length `k`. -/
def padLeftZeros (s : String) (k : Nat) : String :=
  if s.length ≥ k then s else String.mk (List.replicate (k - s.length) '0') ++ s

/-- JavaScript `String(n)` for a number with a finite decimal expansion:
sign, integer digits and, when the reduced denominator divides a power of
ten, the fractional digits after a decimal point.  (A number whose reduced
denominator is not of the form `2^a * 5^b` cannot arise from a JSON literal;
for completeness it is printed as a fraction.) -/
def jsNumStr (q : ℚ) : String :=
  let sign := if q < 0 then "-" else ""
  let n := q.num.natAbs
  let d := q.den
  match (List.range (d + 1)).find? (fun k => (10 ^ k) % d == 0) with
  | some k =>
      let scaled := n * 10 ^ k / d
      if k = 0 then sign ++ natRepr scaled
      else sign ++ natRepr (scaled / 10 ^ k) ++ "." ++
        padLeftZeros (natRepr (scaled % 10 ^ k)) k
  | none => sign ++ natRepr n ++ "/" ++ natRepr d

mutual

/-- JavaScript `String(v)` coercion.  Arrays print as their elements joined
by commas with `null`/`undefined` elements printed empty (so `String([])` is
the empty string); plain objects print as `"[object Object]"`. -/
def jsString : Json → String
  | .null => "null"
  | .bool b => if b then "true" else "false"
  | .num q => jsNumStr q
  | .str s => s
  | .arr es => String.intercalate "," (jsStringArrList es)
  | .obj _ => "[object Object]"

/-- Stringification of array elements for `Array.prototype.toString`. -/
def jsStringArrList : List Json → List String
  | [] => []
  | .null :: xs => "" :: jsStringArrList xs
  | x :: xs => jsString x :: jsStringArrList xs

end

/-- Digits to a natural number. -/
def digitsToNat (cs : List Char) : Nat :=
  cs.foldl (fun a c => a * 10 + (c.toNat - 48)) 0

/-- Core of `parseFloat` on a character list: leading `[digits][.digits]`,
`none` (NaN) when no digit is found before trailing junk. -/
def parseFloatCore (cs : List Char) : Option ℚ :=
  let ip := cs.takeWhile (fun c => c.isDigit)
  let rest := cs.drop ip.length
  match rest with
  | '.' :: rest2 =>
      let fp := rest2.takeWhile (fun c => c.isDigit)
      if ip.isEmpty && fp.isEmpty then none
      else some ((digitsToNat ip : ℚ) + (digitsToNat fp : ℚ) / (10 ^ fp.length : ℚ))
  | _ => if ip.isEmpty then none else some (digitsToNat ip)

/-- JavaScript `parseFloat` on a string: skip leading whitespace, optional
sign, then the leading decimal literal; `none` models NaN.  (Exponent
notation is not modelled; no modelled code path feeds it one.) -/
def jsParseFloat (s : String) : Option ℚ :=
  let cs := s.data.dropWhile (fun c => c == ' ' || c == '\t' || c == '\n' || c == '\r')
  match cs with
  | '-' :: rest => (parseFloatCore rest).map (fun q => -q)
  | '+' :: rest => parseFloatCore rest
  | _ => parseFloatCore cs

/-- Is `pat` a prefix of `l` (character-wise)? -/
def listPrefixOf : List Char → List Char → Bool
  | [], _ => true
  | _ :: _, [] => false
  | a :: as, b :: bs => a == b && listPrefixOf as bs

/-- Substring search used for JavaScript `String.prototype.includes`. -/
def strIncludesAux (pat : List Char) : List Char → Bool
  | [] => listPrefixOf pat []
  | c :: rest => listPrefixOf pat (c :: rest) || strIncludesAux pat rest

/-- JavaScript `s.includes(pat)`. -/
def strIncludes (s pat : String) : Bool :=
  strIncludesAux pat.data s.data

/-- Split at the first occurrence of `pat`: the characters before it and the
characters after it. -/
def breakOnPat (pat : List Char) : List Char → Option (List Char × List Char)
  | [] => if listPrefixOf pat [] then some ([], []) else none
  | c :: rest =>
      if listPrefixOf pat (c :: rest) then some ([], (c :: rest).drop pat.length)
      else (breakOnPat pat rest).map (fun pr => (c :: pr.1, pr.2))

/-- Split a character list on a separator character (like `split('.')`). -/
def splitOnChar (sep : Char) : List Char → List (List Char)
  | [] => [[]]
  | c :: rest =>
      let groups := splitOnChar sep rest
      if c == sep then [] :: groups
      else
        match groups with
        | [] => [[c]]
        | g :: gs => (c :: g) :: gs

/-- Lowercase every character. -/
def charsToLower (cs : List Char) : List Char :=
  cs.map Char.toLower

/-- Hostname of a URL as `new URL(url).hostname` yields it for the simple
`scheme://host/path` URLs this service sees: the text between the sole `://`
and the first `/`, lowercased; `none` models the `URL` constructor throwing.
Both canonicalizers parse the URL with the identical platform constructor,
so the claims comparing them are insensitive to its exact corner cases. -/
def hostnameOf (url : String) : Option String :=
  match breakOnPat "://".data url.data with
  | none => none
  | some (_, rest) =>
      if strIncludesAux "://".data rest then none
      else
        let hchars := rest.takeWhile (fun c => c ≠ '/')
        if hchars.isEmpty then none else some (String.mk (charsToLower hchars))

/-- Strip one leading `www.` label (`hostname.replace(/^www\./, '')`). -/
def stripWww (h : String) : String :=
  if listPrefixOf "www.".data h.data then String.mk (h.data.drop 4) else h

/-- The label list both canonicalizers compute: strip `www.`, split on dots
(the TypeScript `hostname.replace(/^www\./, '').split('.')`, identical in
storage.service.ts and base.strategy.ts). -/
def domainParts (hostname : String) : List String :=
  (splitOnChar '.' (stripWww hostname).data).map String.mk

/-- `StorageService.extractDomain` (storage.service.ts): site slug used to
tag stored raw-job records.  Its common-SLD set is
`com, co, org, net, gov, edu, ac`. -/
def storageExtractDomain (url : String) : String :=
  match hostnameOf url with
  | none => "unknown"
  | some hostname =>
      let parts := domainParts hostname
      let commonSLDs := ["com", "co", "org", "net", "gov", "edu", "ac"]
      if parts.length ≥ 3 then
        let secondToLast := parts.getD (parts.length - 2) ""
        if commonSLDs.contains secondToLast then parts.getD (parts.length - 3) ""
        else parts.getD (parts.length - 2) ""
      else if parts.length = 2 then parts.getD 0 ""
      else parts.getD 0 ""

/-- `BaseExtractionStrategy.extractDomain` (base.strategy.ts): site slug used
by the product strategies when building provenance.  Its common-SLD set is
`com, co, org, net, gov, edu` — without `ac`. -/
def baseExtractDomain (url : String) : String :=
  match hostnameOf url with
  | none => "unknown"
  | some hostname0 =>
      let parts := domainParts hostname0
      let commonSLDs := ["com", "co", "org", "net", "gov", "edu"]
      if parts.length ≥ 3 then
        let secondToLast := parts.getD (parts.length - 2) ""
        if commonSLDs.contains secondToLast then parts.getD (parts.length - 3) ""
        else parts.getD (parts.length - 2) ""
      else parts.getD 0 ""

/-- `BaseExtractionStrategy.parsePrice`: a number passes through, a string is
stripped of every character that is not a digit or dot and parsed with
`parseFloat(...) || 0`; any other value throws (`.replace` on a non-string). -/
def parsePrice : Json → Except Unit ℚ
  | .num q => .ok q
  | .str s => .ok ((parseFloatCore (s.data.filter (fun c => c.isDigit || c == '.'))).getD 0)
  | _ => .error ()

/-- The currency symbol table of `BaseExtractionStrategy.extractCurrency`, in
insertion order (`Object.entries` preserves it); first symbol contained in
the argument wins, default `USD`. -/
def currencyLookup (s : String) : String :=
  match ([("S/", "PEN"), ("$", "USD"), ("€", "EUR"), ("£", "GBP"), ("¥", "JPY"),
          ("R$", "BRL"), ("ARS", "ARS"), ("COP", "COP"), ("CLP", "CLP")].find?
          (fun e => strIncludes s e.1)) with
  | some e => e.2
  | none => "USD"

/-- `BaseExtractionStrategy.extractCurrency(str)`: symbol lookup on a string;
a non-string argument throws (`.includes` on a non-string). -/
def extractCurrency : Json → Except Unit String
  | .str s => .ok (currencyLookup s)
  | _ => .error ()

/-- Canonical product price (`ProductPrice`).  The optional label and flag
fields never influence storage decisions (`priceChanged` reads amount and
currency only) and are omitted. -/
structure ProductPrice where
  amount : ℚ
  currency : String
  deriving DecidableEq, Repr

/-- Canonical product entity, restricted to the fields the verified claims
observe.  `productId` and `name` are raw runtime values: the Falabella
normalizer assigns them without coercion, so a malformed record can place a
non-string there; the store's template literal coerces later. -/
structure Product where
  productId : Json
  name : Json
  price : ProductPrice
  domain : String

/-- One entry of a stored product's `priceHistory`. -/
structure PricePoint where
  price : ProductPrice
  recordedAt : Nat
  deriving DecidableEq, Repr

/-- A document of the `products` collection (`StoredProduct`). -/
structure StoredProduct where
  product : Product
  uniqueKey : String
  firstSeenAt : Nat
  lastSeenAt : Nat
  lastUpdatedAt : Nat
  priceHistory : List PricePoint
  version : Nat

/-- A keyed collection as an association list from `uniqueKey` to document. -/
def storePut {α : Type} : List (String × α) → String → α → List (String × α)
  | [], k, v => [(k, v)]
  | (k', v') :: rest, k, v =>
      if k' = k then (k, v) :: rest else (k', v') :: storePut rest k v

/-- The `products` collection. -/
abbrev ProductStore := List (String × StoredProduct)

/-- `ProductStorageService.generateUniqueKey`: the template literal
`domain:productId` (the id is coerced to a string by the template). -/
def generateUniqueKey (domain : String) (productId : Json) : String :=
  domain ++ ":" ++ jsString productId

/-- `ProductStorageService.priceChanged`: amount or currency differs. -/
def priceChanged (oldPrice newPrice : ProductPrice) : Bool :=
  oldPrice.amount != newPrice.amount || oldPrice.currency != newPrice.currency

/-- `ProductStorageService.upsertProduct`: look up by `uniqueKey`; if present
overwrite the canonical fields, bump `version`, refresh `lastSeenAt` and
`lastUpdatedAt`, keep `firstSeenAt`, and append the incoming price to
`priceHistory` (trimmed to the most recent 100) when it changed; if absent
insert with `version = 1` and a single seeded history entry. -/
def upsertProduct (store : ProductStore) (product : Product) (now : Nat) : ProductStore :=
  let uniqueKey := generateUniqueKey product.domain product.productId
  match store.lookup uniqueKey with
  | some existing =>
      let priceHistory :=
        if priceChanged existing.product.price product.price then
          let appended := existing.priceHistory ++ [{ price := product.price, recordedAt := now }]
          if appended.length > 100 then appended.drop (appended.length - 100) else appended
        else existing.priceHistory
      storePut store uniqueKey
        { product := product
          uniqueKey := uniqueKey
          firstSeenAt := existing.firstSeenAt
          lastSeenAt := now
          lastUpdatedAt := now
          priceHistory := priceHistory
          version := existing.version + 1 }
  | none =>
      storePut store uniqueKey
        { product := product
          uniqueKey := uniqueKey
          firstSeenAt := now
          lastSeenAt := now
          lastUpdatedAt := now
          priceHistory := [{ price := product.price, recordedAt := now }]
          version := 1 }

/-- Real-estate listing price: `amount` is a JavaScript number (`none` models
NaN, which `parseFloat` can yield here because `parseJsonListing` applies no
`|| 0` to it); `currency` is the raw runtime value the parser assigned. -/
structure ListingPrice where
  amount : Option ℚ
  currency : Json

/-- Canonical real-estate listing, restricted to the fields the verified
claims observe (`listingId` and `source.domain` are genuine strings in every
constructor in urbania.strategy.ts). -/
structure Listing where
  listingId : String
  domain : String
  price : ListingPrice

/-- One entry of a stored listing's `priceHistory`
(`{amount, currency, changedAt}` — note: not `{price, recordedAt}`). -/
structure ListingPricePoint where
  amount : Option ℚ
  currency : Json
  changedAt : Nat

/-- A document of the `real_estate_listings` collection (`StoredListing`).
The TypeScript interface declares no `version` field and no code path ever
writes one; because MongoDB documents are schemaless the possibly-present
`version` slot is modelled explicitly as an `Option`, which every operation
of this service leaves at `none`. -/
structure StoredListing where
  listing : Listing
  uniqueKey : String
  firstSeenAt : Nat
  lastSeenAt : Nat
  lastUpdatedAt : Nat
  priceHistory : List ListingPricePoint
  version : Option Nat

/-- The `real_estate_listings` collection. -/
abbrev ListingStore := List (String × StoredListing)

/-- JavaScript strict equality on numbers (`!==` negated): false whenever a
side is NaN. -/
def jsNumEq (a b : Option ℚ) : Bool :=
  match a, b with
  | some x, some y => x == y
  | _, _ => false

/-- `RealEstateStorageService.upsertListing`: look up by `uniqueKey`
(`domain:listingId`); if present overwrite the canonical fields, refresh
`lastSeenAt`/`lastUpdatedAt`, keep `firstSeenAt`, and — only when the
incoming amount differs from the stored amount (currency is not compared) —
append the PREVIOUSLY stored price to `priceHistory` with `changedAt = now`,
never trimming; if absent insert with an empty `priceHistory`.  The `$set`
update never touches a `version` slot and the insert creates none. -/
def upsertListing (store : ListingStore) (listing : Listing) (now : Nat) : ListingStore :=
  let uniqueKey := listing.domain ++ ":" ++ listing.listingId
  match store.lookup uniqueKey with
  | some existing =>
      let priceHistory :=
        if jsNumEq listing.price.amount existing.listing.price.amount then
          existing.priceHistory
        else
          existing.priceHistory ++
            [{ amount := existing.listing.price.amount
               currency := existing.listing.price.currency
               changedAt := now }]
      storePut store uniqueKey
        { listing := listing
          uniqueKey := uniqueKey
          firstSeenAt := existing.firstSeenAt
          lastSeenAt := now
          lastUpdatedAt := now
          priceHistory := priceHistory
          version := existing.version }
  | none =>
      storePut store uniqueKey
        { listing := listing
          uniqueKey := uniqueKey
          firstSeenAt := now
          lastSeenAt := now
          lastUpdatedAt := now
          priceHistory := []
          version := none }

/-- `internetPrice.price?.[0]`: element 0 of an array, first character of a
nonempty string, key `"0"` of an object; `undefined` otherwise (and for a
missing or null `price`, via the optional chain). -/
def optIndex0 : Option Json → Option Json
  | some (.arr (x :: _)) => some x
  | some (.arr []) => none
  | some (.str s) => if s = "" then none else some (.str (String.mk [s.data.headD ' ']))
  | some (.obj fs) => fs.lookup "0"
  | _ => none

/-- String form of `parsePrice` (its argument is already a string): strip
every character that is not a digit or dot, then `parseFloat(...) || 0`. -/
def parsePriceStr (s : String) : ℚ :=
  (parseFloatCore (s.data.filter (fun c => c.isDigit || c == '.'))).getD 0

/-- `item.prices.find((p) => p.type === 'internetPrice')`: a `null` element
throws (property access on null); any other non-object simply fails the
strict equality. -/
def findInternetPrice : List Json → Except Unit (Option Json)
  | [] => .ok none
  | .null :: _ => .error ()
  | p :: rest =>
      if (match jget p "type" with | some (.str t) => t == "internetPrice" | _ => false)
      then .ok (some p) else findInternetPrice rest

/-- `FalabellaStrategy.extractPrice`: with a nonempty `prices` array, pick
the internet-price entry (else the first), amount from
`price?.[0] || price || '0'`, currency from the `symbol` field (default
`'S/ '`); otherwise parse the stringified `price` field and look its symbols
up for the currency. -/
def falabellaExtractPrice (item : Json) : Except Unit ProductPrice :=
  match jget item "prices" with
  | some (.arr (p0 :: ps)) => do
      let found ← findInternetPrice (p0 :: ps)
      let internetPrice := found.getD p0
      let amount ← parsePrice
        (jsOr (optIndex0 (jget internetPrice "price"))
          (jsOr (jget internetPrice "price") (.str "0")))
      let currency ← extractCurrency (jsOr (jget internetPrice "symbol") (.str "S/ "))
      pure { amount := amount, currency := currency }
  | _ =>
      let priceStr := jsString (jsOr (jget item "price") (.str "0"))
      pure { amount := parsePriceStr priceStr, currency := currencyLookup priceStr }

/-- `FalabellaStrategy.normalizeProduct`, restricted to the observed fields;
`productId` and `name` are assigned raw (no `String(...)` coercion). -/
def falabellaNormalizeProduct (item : Json) (domain : String) (_sourceUrl : String)
    (_jobId : Option String) : Except Unit Product := do
  let price ← falabellaExtractPrice item
  pure
    { productId := jsOr (jget item "productId") (jsOr (jget item "skuId") (.str ""))
      name := jsOr (jget item "displayName") (.str "")
      price := price
      domain := domain }

/-- `FalabellaStrategy.canHandle`: Falabella URL, or a Next.js state blob
(`props.pageProps.results` present), or an array whose first element has
`displayName` and `mediaUrls`. -/
def falabellaCanHandle (data : Json) (url : String) : Bool :=
  let isFalabellaUrl := strIncludes url "falabella.com"
  let hasNextJsStructure := (jget3 data "props" "pageProps" "results").isSome
  let hasFalabellaProducts :=
    match data with
    | .arr (x :: _) => (jget x "displayName").isSome && (jget x "mediaUrls").isSome
    | _ => false
  isFalabellaUrl || hasNextJsStructure || hasFalabellaProducts

/-- Raw-record list located by `FalabellaStrategy.extract`: a truthy
`props.pageProps.results` (which must be an array or the later `.filter`
throws), else a bare array, else a single record with `productId` and
`displayName`, else nothing. -/
def falabellaGetProducts (data : Json) : Except Unit (List Json) :=
  if truthyO (jget3 data "props" "pageProps" "results") then
    match jget3 data "props" "pageProps" "results" with
    | some (.arr a) => .ok a
    | _ => .error ()
  else
    match data with
    | .arr a => .ok a
    | _ =>
        if truthyO (jget data "productId") && truthyO (jget data "displayName") then .ok [data]
        else .ok []

/-- The `.filter((item) => item.productId && item.displayName)` predicate of
`FalabellaStrategy.extract`; a `null` element throws. -/
def falabellaFilterPred : Json → Except Unit Bool
  | .null => .error ()
  | item => .ok (truthyO (jget item "productId") && truthyO (jget item "displayName"))

/-- Filtering with a predicate that may throw. -/
def exceptFilter (p : Json → Except Unit Bool) : List Json → Except Unit (List Json)
  | [] => .ok []
  | x :: xs => do
      let keep ← p x
      let rest ← exceptFilter p xs
      pure (if keep then x :: rest else rest)

/-- Body of `FalabellaStrategy.extract` before its `try`/`catch`. -/
def falabellaExtractE (data : Json) (url : String) (jobId : Option String) :
    Except Unit (List Product) := do
  let products ← falabellaGetProducts data
  let domain := baseExtractDomain url
  let filtered ← exceptFilter falabellaFilterPred products
  filtered.mapM (fun item => falabellaNormalizeProduct item domain url jobId)

/-- `FalabellaStrategy.extract`: any internal exception is caught and yields
the empty list. -/
def falabellaExtract (data : Json) (url : String) (jobId : Option String) : List Product :=
  match falabellaExtractE data url jobId with
  | .ok products => products
  | .error _ => []

/-- `GenericStrategy.looksLikeProduct`: a non-null `typeof 'object'` value
with a truthy id-like field and a truthy name-like field. -/
def looksLikeProduct (item : Json) : Bool :=
  let isObjectLike := match item with | .obj _ => true | .arr _ => true | _ => false
  let hasId := truthyO (jget item "id") || truthyO (jget item "productId") ||
    truthyO (jget item "sku") || truthyO (jget item "skuId") || truthyO (jget item "asin")
  let hasName := truthyO (jget item "name") || truthyO (jget item "title") ||
    truthyO (jget item "displayName") || truthyO (jget item "productName")
  isObjectLike && hasId && hasName

/-- The id-alias chain of `GenericStrategy.normalizeProduct`
(`item.id || item.productId || item.sku || item.skuId || item.asin || ''`). -/
def genericIdValue (item : Json) : Json :=
  jsOr (jget item "id") (jsOr (jget item "productId") (jsOr (jget item "sku")
    (jsOr (jget item "skuId") (jsOr (jget item "asin") (.str "")))))

/-- The name-alias chain of `GenericStrategy.normalizeProduct`
(`item.name || item.title || item.displayName || 'Unknown Product'` — note
`productName` is accepted by `looksLikeProduct` but not consulted here). -/
def genericNameValue (item : Json) : Json :=
  jsOr (jget item "name") (jsOr (jget item "title")
    (jsOr (jget item "displayName") (.str "Unknown Product")))

/-- `GenericStrategy.extractPrice`: amount from the first truthy of
`price`/`currentPrice`/`salePrice`/`amount` (default 0) via `parsePrice`;
currency from the explicit `currency` field if truthy, else symbol lookup on
the `priceSymbol` field if truthy, else `'USD'`; a non-string winner of that
chain is replaced by `'USD'` by the final `typeof` check.  The price string
itself is never consulted for the currency. -/
def genericExtractPrice (item : Json) : Except Unit ProductPrice := do
  let priceValue := jsOr (jget item "price") (jsOr (jget item "currentPrice")
    (jsOr (jget item "salePrice") (jsOr (jget item "amount") (.num 0))))
  let currency : Json ←
    if truthyO (jget item "currency") then
      pure ((jget item "currency").getD .null)
    else if truthyO (jget item "priceSymbol") then do
      let code ← extractCurrency ((jget item "priceSymbol").getD .null)
      pure (Json.str code)
    else
      pure (Json.str "USD")
  let amount ← parsePrice priceValue
  pure { amount := amount
         currency := match currency with | .str s => s | _ => "USD" }

/-- `GenericStrategy.normalizeProduct`, restricted to the observed fields;
here `productId` and `name` ARE coerced with `String(...)`. -/
def genericNormalizeProduct (item : Json) (domain : String) (_sourceUrl : String)
    (_jobId : Option String) : Except Unit Product := do
  let productId := jsString (genericIdValue item)
  let name := jsString (genericNameValue item)
  let price ← genericExtractPrice item
  pure { productId := .str productId, name := .str name, price := price, domain := domain }

/-- Raw-record list located by `GenericStrategy.extract`: a bare array, a
`products`/`items`/`results` array property, or a single record that looks
like a product. -/
def genericGetProducts (data : Json) : List Json :=
  match data with
  | .arr a => a
  | _ =>
      match jget data "products" with
      | some (.arr a) => a
      | _ =>
          match jget data "items" with
          | some (.arr a) => a
          | _ =>
              match jget data "results" with
              | some (.arr a) => a
              | _ => if looksLikeProduct data then [data] else []

/-- Body of `GenericStrategy.extract` before its `try`/`catch`. -/
def genericExtractE (data : Json) (url : String) (jobId : Option String) :
    Except Unit (List Product) :=
  let products := genericGetProducts data
  let domain := baseExtractDomain url
  (products.filter looksLikeProduct).mapM
    (fun item => genericNormalizeProduct item domain url jobId)

/-- `GenericStrategy.extract`: any internal exception is caught and yields
the empty list. -/
def genericExtract (data : Json) (url : String) (jobId : Option String) : List Product :=
  match genericExtractE data url jobId with
  | .ok products => products
  | .error _ => []

/-- `UrbaniaStrategy.parseJsonListing`, restricted to the observed fields:
`listingId` is `String(item.id || item.listingId || item.propertyId ||
`unknown-${Date.now()}`)`, the provenance domain is hard-coded to the string
`'urbania.pe'` (the strategy never calls a domain canonicalizer), the amount
is `parseFloat(item.price?.amount || item.price || 0)` (no `|| 0` after the
parse, so NaN is possible) and the currency is `item.price?.currency ||
'PEN'`. -/
def parseJsonListing (item : Json) (_url : String) (now : Nat) : Listing :=
  { listingId := jsString (jsOr (jget item "id") (jsOr (jget item "listingId")
      (jsOr (jget item "propertyId") (.str ("unknown-" ++ natRepr now)))))
    domain := "urbania.pe"
    price :=
      { amount := jsParseFloat (jsString
          (jsOr (jget2 item "price" "amount") (jsOr (jget item "price") (.num 0))))
        currency := jsOr (jget2 item "price" "currency") (.str "PEN") } }

/-- `UrbaniaStrategy.canHandle`: the URL contains `urbania.pe`. -/
def urbaniaCanHandle (_data : Json) (url : String) : Bool :=
  strIncludes url "urbania.pe"

/-- An extraction strategy as the orchestrators see it: a name, a claiming
predicate and an extractor.  Both are in `Except String` because a strategy
is arbitrary code whose exceptions the orchestrator must contain. -/
structure Strategy (E : Type) where
  name : String
  canHandle : Json → String → Except String Bool
  extract : Json → String → Option String → Except String (List E)

/-- `findStrategy` (shared shape of both orchestrators): first registered
strategy whose `canHandle` returns true, in registration order; `none` when
none matches.  An exception in a predicate propagates to the orchestrator's
`try`. -/
def findStrategy {E : Type} (strategies : List (Strategy E)) (data : Json) (url : String) :
    Except String (Option (Strategy E)) :=
  match strategies with
  | [] => .ok none
  | s :: rest => do
      let b ← s.canHandle data url
      if b then pure (some s) else findStrategy rest data url

/-- Result metadata (`ProductExtractionResult.metadata` and
`RealEstateExtractionResult.metadata` are structurally identical); an absent
optional field is `none`/`[]`. -/
structure ExtractionMetadata where
  totalExtracted : Nat
  source : String
  extractedAt : Nat
  strategyUsed : Option String
  errors : List String

/-- An extraction result: entities plus metadata. -/
structure ExtractionResult (E : Type) where
  entities : List E
  metadata : ExtractionMetadata

/-- The fallible body of `ProductExtractorService.extractProducts`: select a
strategy (the unconditional fallback when none matches) and run it. -/
def productExtractRun {E : Type} (strategies : List (Strategy E)) (fallbackStrategy : Strategy E)
    (data : Json) (url : String) (jobId : Option String) : Except String (String × List E) := do
  let found ← findStrategy strategies data url
  let strategy := found.getD fallbackStrategy
  let entities ← strategy.extract data url jobId
  pure (strategy.name, entities)

/-- `ProductExtractorService.extractProducts`: never raises; an internal
exception yields an empty entity list and the error string
`Extraction error: <message>`. -/
def extractProducts {E : Type} (strategies : List (Strategy E)) (fallbackStrategy : Strategy E)
    (data : Json) (url : String) (jobId : Option String) (now : Nat) : ExtractionResult E :=
  match productExtractRun strategies fallbackStrategy data url jobId with
  | .ok (name, entities) =>
      { entities := entities
        metadata := { totalExtracted := entities.length, source := url, extractedAt := now
                      strategyUsed := some name, errors := [] } }
  | .error msg =>
      { entities := []
        metadata := { totalExtracted := 0, source := url, extractedAt := now
                      strategyUsed := none, errors := ["Extraction error: " ++ msg] } }

/-- The fallible body of `RealEstateExtractorService.extractListings`:
select a strategy — there is NO fallback — and run it when one matched. -/
def realEstateExtractRun {E : Type} (strategies : List (Strategy E)) (data : Json)
    (url : String) (jobId : Option String) : Except String (Option (String × List E)) := do
  let found ← findStrategy strategies data url
  match found with
  | none => pure none
  | some strategy => do
      let entities ← strategy.extract data url jobId
      pure (some (strategy.name, entities))

/-- `RealEstateExtractorService.extractListings`: never raises; when no
registered strategy matches it reports `No strategy found for this real
estate site`; an internal exception yields `Extraction error: <message>`. -/
def extractListings {E : Type} (strategies : List (Strategy E)) (data : Json) (url : String)
    (jobId : Option String) (now : Nat) : ExtractionResult E :=
  match realEstateExtractRun strategies data url jobId with
  | .ok none =>
      { entities := []
        metadata := { totalExtracted := 0, source := url, extractedAt := now
                      strategyUsed := none
                      errors := ["No strategy found for this real estate site"] } }
  | .ok (some (name, entities)) =>
      { entities := entities
        metadata := { totalExtracted := entities.length, source := url, extractedAt := now
                      strategyUsed := some name, errors := [] } }
  | .error msg =>
      { entities := []
        metadata := { totalExtracted := 0, source := url, extractedAt := now
                      strategyUsed := none, errors := ["Extraction error: " ++ msg] } }

/-- The `FalabellaStrategy` instance; its `canHandle` and `extract` are
total (the class catches internally), so they never throw. -/
def falabellaStrategy : Strategy Product :=
  { name := "Falabella"
    canHandle := fun data url => .ok (falabellaCanHandle data url)
    extract := fun data url jobId => .ok (falabellaExtract data url jobId) }

/-- The `GenericStrategy` instance (the unconditional fallback). -/
def genericStrategy : Strategy Product :=
  { name := "Generic"
    canHandle := fun _ _ => .ok true
    extract := fun data url jobId => .ok (genericExtract data url jobId) }

/-- The product orchestrator as constructed: `[FalabellaStrategy]`
registered, `GenericStrategy` as the fallback. -/
def productExtractorService (data : Json) (url : String) (jobId : Option String) (now : Nat) :
    ExtractionResult Product :=
  extractProducts [falabellaStrategy] genericStrategy data url jobId now

/-- `UrbaniaStrategy` with its extractor left as a parameter:
`UrbaniaStrategy.extract` parses HTML through the cheerio DOM library, which
is outside this embedding; every claim about the real-estate orchestrator's
selection behaviour is proved for an arbitrary extractor, so nothing rests
on this slot. -/
def urbaniaStrategyWith (e : Json → String → Option String → Except String (List Listing)) :
    Strategy Listing :=
  { name := "Urbania"
    canHandle := fun data url => .ok (urbaniaCanHandle data url)
    extract := e }

/-- The real-estate orchestrator as constructed: only `UrbaniaStrategy`
registered and no fallback, with the HTML extractor abstracted. -/
def realEstateExtractorService (e : Json → String → Option String → Except String (List Listing))
    (data : Json) (url : String) (jobId : Option String) (now : Nat) : ExtractionResult Listing :=
  extractListings [urbaniaStrategyWith e] data url jobId now

/-- A concrete stand-in for the abstracted Urbania HTML extractor, used only
to close concrete statements that do not depend on it. -/
def urbaniaExtractOpaque : Json → String → Option String → Except String (List Listing) :=
  fun _ _ _ => .ok []

/-- The spec's end-to-end Falabella payload:
`{props:{pageProps:{results:[{productId:"123", displayName:"Phone X",
prices:[{type:"internetPrice", price:["999"], symbol:"S/ "}]}]}}}`. -/
def falabellaScenarioPayload : Json :=
  .obj [("props", .obj [("pageProps", .obj [("results", .arr
    [.obj [("productId", .str "123"), ("displayName", .str "Phone X"),
           ("prices", .arr [.obj [("type", .str "internetPrice"),
                                  ("price", .arr [.str "999"]),
                                  ("symbol", .str "S/ ")]])]])])])]

/-- Product used by the 150-upsert scenario: same key throughout, price
amount `i` (so each upsert's price differs from the previously stored one). -/
def scenarioProduct (i : Nat) : Product :=
  { productId := .str "p1", name := .str "W"
    price := { amount := (i : ℚ), currency := "USD" }, domain := "x" }

/-- 150 successive upserts of the same `uniqueKey`, the i-th (1-based) at
time `i` with price amount `i`. -/
def productScenarioStore : ProductStore :=
  (List.range 150).foldl (fun s i => upsertProduct s (scenarioProduct (i + 1)) (i + 1)) []

/-- The stored price history after the product 150-upsert scenario. -/
def productScenarioHistory : Option (List PricePoint) :=
  (productScenarioStore.lookup "x:p1").map (fun st => st.priceHistory)

/-- The 100 most recent prices of the 150-upsert scenario: amounts 51..150,
each recorded at its upsert time. -/
def expectedScenarioHistory : List PricePoint :=
  (List.range 100).map (fun j =>
    { price := { amount := ((51 + j : Nat) : ℚ), currency := "USD" }, recordedAt := 51 + j })

/-- Listing used by the real-estate 150-upsert scenario. -/
def scenarioListing (i : Nat) : Listing :=
  { listingId := "l1", domain := "urbania.pe"
    price := { amount := some (i : ℚ), currency := .str "PEN" } }

/-- 150 successive upserts of the same listing `uniqueKey`, the i-th
(1-based) at time `i` with price amount `i`. -/
def listingScenarioStore : ListingStore :=
  (List.range 150).foldl (fun s i => upsertListing s (scenarioListing (i + 1)) (i + 1)) []

/-- A simple concrete product for closed instantiations. -/
def exampleProduct (amount : ℚ) : Product :=
  { productId := .str "a", name := .str "n"
    price := { amount := amount, currency := "USD" }, domain := "d" }

/-- A simple concrete listing for closed instantiations. -/
def exampleListing (amount : ℚ) (currency : String) : Listing :=
  { listingId := "l", domain := "urbania.pe"
    price := { amount := some amount, currency := .str currency } }

/-- The end-to-end Falabella scenario run through the product orchestrator
exactly as constructed (Falabella registered, Generic fallback). -/
def falabellaScenarioResult : ExtractionResult Product :=
  productExtractorService falabellaScenarioPayload
    "https://www.falabella.com.pe/falabella-pe/search" (some "job-1") 7

/-- The product orchestrator applied to the spec's Falabella scenario
payload, with the URL, job id and time left free. -/
def productExtractProducts (url : String) (jobId : Option String) (now : Nat) :
    ExtractionResult Product :=
  productExtractorService falabellaScenarioPayload url jobId now

/-! Helper lemmas shared by the claim theorems. -/

theorem storePut_lookup_self {α : Type} (store : List (String × α)) (k : String) (v : α) :
    (storePut store k v).lookup k = some v := by
  induction store with
  | nil => simp [storePut, List.lookup]
  | cons hd tl ih =>
      obtain ⟨k', v'⟩ := hd
      by_cases hk : k' = k
      · simp [storePut, hk, List.lookup]
      · simp only [storePut, if_neg hk, List.lookup]
        have : (k == k') = false := by
          simp [beq_eq_false_iff_ne]
          exact fun h => hk h.symm
        simp [this, ih]

theorem storePut_lookup_or {α : Type} (store : List (String × α)) (k0 k : String) (v w : α)
    (h : (storePut store k0 v).lookup k = some w) : w = v ∨ store.lookup k = some w := by
  induction store with
  | nil =>
      simp only [storePut, List.lookup] at h
      rcases hbeq : (k == k0) with _ | _ <;> rw [hbeq] at h
      · exact absurd h (by simp)
      · exact Or.inl (by injection h with h2; exact h2.symm)
  | cons hd tl ih =>
      obtain ⟨k', v'⟩ := hd
      by_cases hk : k' = k0
      · rw [storePut, if_pos hk] at h
        rw [List.lookup] at h
        rcases hbeq : (k == k0) with _ | _ <;> rw [hbeq] at h
        · right
          rw [List.lookup]
          have : (k == k') = false := by rw [hk]; exact hbeq
          rw [this]
          exact h
        · exact Or.inl (by injection h with h2; exact h2.symm)
      · rw [storePut, if_neg hk] at h
        rw [List.lookup] at h
        rcases hbeq : (k == k') with _ | _ <;> rw [hbeq] at h
        · rcases ih h with h1 | h1
          · exact Or.inl h1
          · right
            rw [List.lookup, hbeq]
            exact h1
        · right
          rw [List.lookup, hbeq]
          exact h

theorem string_mk_singleton_length (c : Char) : (String.mk [c]).length = 1 := rfl

theorem natRepr_length_pos (n : Nat) : 0 < (natRepr n).length := by
  rw [natRepr]
  split
  · rw [string_mk_singleton_length]
    omega
  · rw [String.length_append, string_mk_singleton_length]
    omega

theorem jsNumStr_length_pos (q : ℚ) : 0 < (jsNumStr q).length := by
  rw [jsNumStr]
  rcases hfind : (List.range (q.den + 1)).find? (fun k => (10 ^ k) % q.den == 0) with _ | k
  · simp only [String.length_append]
    have := natRepr_length_pos q.num.natAbs
    omega
  · simp only
    split
    · rw [String.length_append]
      have := natRepr_length_pos (q.num.natAbs * 10 ^ k / q.den)
      omega
    · simp only [String.length_append]
      have := natRepr_length_pos (q.num.natAbs * 10 ^ k / q.den / 10 ^ k)
      omega

theorem jsString_ne_empty_of_truthy (v : Json) (ht : truthy v = true)
    (harr : ∀ es, v ≠ .arr es) : jsString v ≠ "" := by
  intro hempty
  have hlen : (jsString v).length = 0 := by rw [hempty]; rfl
  cases v with
  | null => simp [truthy] at ht
  | bool b =>
      cases b
      · simp [truthy] at ht
      · rw [jsString] at hlen
        exact absurd hlen (by decide)
  | num q =>
      rw [jsString] at hlen
      have := jsNumStr_length_pos q
      omega
  | str s =>
      rw [jsString] at hempty
      rw [truthy, hempty] at ht
      simp at ht
  | arr es => exact harr es rfl
  | obj fs =>
      rw [jsString] at hlen
      exact absurd hlen (by decide)

theorem truthy_jsOr (a : Option Json) (b : Json) :
    truthy (jsOr a b) = (truthyO a || truthy b) := by
  cases a with
  | none => rfl
  | some v =>
      rw [jsOr, truthyO]
      by_cases hv : truthy v = true
      · simp [hv]
      · simp at hv
        simp [hv]

theorem jsOr_of_truthy (a : Json) (b : Json) (h : truthy a = true) :
    jsOr (some a) b = a := by
  simp [jsOr, h]

theorem jsOr_arr_cases (a : Option Json) (b : Json) (es : List Json)
    (h : jsOr a b = .arr es) : a = some (.arr es) ∨ b = .arr es := by
  cases a with
  | none => exact Or.inr h
  | some v =>
      rw [jsOr] at h
      split at h
      · exact Or.inl (by rw [h])
      · exact Or.inr h

theorem string_append_ne_self_of_ne_empty (s x : String) (hx : x ≠ "") : s ++ x ≠ s := by
  intro h
  apply hx
  have hdata : (s ++ x).data = s.data := by rw [h]
  rw [String.data_append] at hdata
  have : x.data = ([] : List Char) := by
    have := @List.append_cancel_left _ s.data x.data [] (by simpa using hdata)
    simpa using this
  cases x
  simp at this
  simp [this]

theorem contains_sld (s : String) (hs : s ≠ "ac") :
    (["com", "co", "org", "net", "gov", "edu", "ac"] : List String).contains s =
    (["com", "co", "org", "net", "gov", "edu"] : List String).contains s := by
  have hac : (s == "ac") = false := by simpa [beq_eq_false_iff_ne] using hs
  simp [List.contains, List.elem, hac]

/-- C1 (amended): in the `products` collection the first upsert of a
`uniqueKey` stores `version = 1` and `firstSeenAt = now`, and every
subsequent upsert of that key stores exactly the previous version plus 1
with `firstSeenAt` unchanged; in the `real_estate_listings` collection no
upsert ever writes a `version` (the first upsert stores none and updates
preserve the absent slot), while `firstSeenAt` is likewise set once and then
preserved. -/
theorem version_and_firstSeen_semantics :
    (∀ (store : ProductStore) (p : Product) (now : Nat),
      store.lookup (generateUniqueKey p.domain p.productId) = none →
      ((upsertProduct store p now).lookup (generateUniqueKey p.domain p.productId)).map
        (fun st => (st.version, st.firstSeenAt)) = some (1, now)) ∧
    (∀ (store : ProductStore) (p : Product) (now : Nat) (ex : StoredProduct),
      store.lookup (generateUniqueKey p.domain p.productId) = some ex →
      ((upsertProduct store p now).lookup (generateUniqueKey p.domain p.productId)).map
        (fun st => (st.version, st.firstSeenAt)) = some (ex.version + 1, ex.firstSeenAt)) ∧
    (∀ (store : ListingStore) (l : Listing) (now : Nat),
      store.lookup (l.domain ++ ":" ++ l.listingId) = none →
      ((upsertListing store l now).lookup (l.domain ++ ":" ++ l.listingId)).map
        (fun st => (st.version, st.firstSeenAt)) = some (none, now)) ∧
    (∀ (store : ListingStore) (l : Listing) (now : Nat) (ex : StoredListing),
      store.lookup (l.domain ++ ":" ++ l.listingId) = some ex →
      ((upsertListing store l now).lookup (l.domain ++ ":" ++ l.listingId)).map
        (fun st => (st.version, st.firstSeenAt)) = some (ex.version, ex.firstSeenAt)) := by
  refine ⟨?_, ?_, ?_, ?_⟩
  · intro store p now h
    rw [upsertProduct]
    rw [h]
    rw [storePut_lookup_self]
    rfl
  · intro store p now ex h
    rw [upsertProduct]
    rw [h]
    rw [storePut_lookup_self]
    rfl
  · intro store l now h
    rw [upsertListing]
    rw [h]
    rw [storePut_lookup_self]
    rfl
  · intro store l now ex h
    rw [upsertListing]
    rw [h]
    rw [storePut_lookup_self]
    rfl

/-- Witness for the amended C1 theorem at concrete inputs: a fresh product
gets version 1 at time 1; re-upserting the same key at time 2 gives version
2 with `firstSeenAt` still 1; a fresh listing gets no version; re-upserting
it keeps the version slot absent and `firstSeenAt` at 1. -/
theorem version_and_firstSeen_semantics_witness :
    (((upsertProduct [] (exampleProduct 10) 1).lookup "d:a").map
      (fun st => (st.version, st.firstSeenAt)) = some (1, 1)) ∧
    (((upsertProduct (upsertProduct [] (exampleProduct 10) 1) (exampleProduct 12) 2).lookup
      "d:a").map (fun st => (st.version, st.firstSeenAt)) = some (2, 1)) ∧
    (((upsertListing [] (exampleListing 10 "PEN") 1).lookup "urbania.pe:l").map
      (fun st => (st.version, st.firstSeenAt)) = some (none, 1)) ∧
    (((upsertListing (upsertListing [] (exampleListing 10 "PEN") 1) (exampleListing 12 "PEN") 2).lookup
      "urbania.pe:l").map (fun st => (st.version, st.firstSeenAt)) = some (none, 1)) := by
  refine ⟨?_, ?_, ?_, ?_⟩
  · exact version_and_firstSeen_semantics.1 [] (exampleProduct 10) 1 rfl
  · exact version_and_firstSeen_semantics.2.1 (upsertProduct [] (exampleProduct 10) 1)
      (exampleProduct 12) 2
      { product := exampleProduct 10, uniqueKey := "d:a", firstSeenAt := 1, lastSeenAt := 1
        lastUpdatedAt := 1
        priceHistory := [{ price := { amount := 10, currency := "USD" }, recordedAt := 1 }]
        version := 1 } rfl
  · exact version_and_firstSeen_semantics.2.2.1 [] (exampleListing 10 "PEN") 1 rfl
  · exact version_and_firstSeen_semantics.2.2.2 (upsertListing [] (exampleListing 10 "PEN") 1)
      (exampleListing 12 "PEN") 2
      { listing := exampleListing 10 "PEN", uniqueKey := "urbania.pe:l", firstSeenAt := 1
        lastSeenAt := 1, lastUpdatedAt := 1, priceHistory := [], version := none } rfl

/-- Counterexample to C1 as stated: for the real-estate kind, the first
upsert of a fresh `uniqueKey` stores a document with NO version at all (the
claim says it stores `version = 1`). -/
theorem listing_first_upsert_stores_no_version :
    ((upsertListing [] (exampleListing 10 "PEN") 5).lookup "urbania.pe:l").map
      (fun st => st.version) = some none ∧
    some (none : Option Nat) ≠ some (some 1) := by
  exact ⟨rfl, by decide⟩

/-- C3 (amended): the first insert of a product `uniqueKey` seeds
`priceHistory` with exactly one entry carrying the entity's initial price at
insertion time; the first insert of a real-estate listing stores an EMPTY
`priceHistory`. -/
theorem initial_price_history_semantics :
    (∀ (store : ProductStore) (p : Product) (now : Nat),
      store.lookup (generateUniqueKey p.domain p.productId) = none →
      ((upsertProduct store p now).lookup (generateUniqueKey p.domain p.productId)).map
        (fun st => st.priceHistory) = some [{ price := p.price, recordedAt := now }]) ∧
    (∀ (store : ListingStore) (l : Listing) (now : Nat),
      store.lookup (l.domain ++ ":" ++ l.listingId) = none →
      ((upsertListing store l now).lookup (l.domain ++ ":" ++ l.listingId)).map
        (fun st => st.priceHistory) = some []) := by
  constructor
  · intro store p now h
    rw [upsertProduct]
    rw [h]
    rw [storePut_lookup_self]
    rfl
  · intro store l now h
    rw [upsertListing]
    rw [h]
    rw [storePut_lookup_self]
    rfl

/-- Witness for the amended C3 theorem at concrete inputs. -/
theorem initial_price_history_semantics_witness :
    (((upsertProduct [] (exampleProduct 10) 5).lookup "d:a").map (fun st => st.priceHistory) =
      some [{ price := { amount := 10, currency := "USD" }, recordedAt := 5 }]) ∧
    (((upsertListing [] (exampleListing 10 "PEN") 5).lookup "urbania.pe:l").map
      (fun st => st.priceHistory) = some []) := by
  exact ⟨initial_price_history_semantics.1 [] (exampleProduct 10) 5 rfl,
    initial_price_history_semantics.2 [] (exampleListing 10 "PEN") 5 rfl⟩

/-- Counterexample to C3 as stated: the first insert of a real-estate
listing seeds NO `priceHistory` entry (length 0, the claim says exactly
one). -/
theorem listing_insert_seeds_empty_history :
    ((upsertListing [] (exampleListing 10 "PEN") 5).lookup "urbania.pe:l").map
      (fun st => st.priceHistory.length) = some 0 ∧
    some (0 : Nat) ≠ some 1 := by
  exact ⟨rfl, by decide⟩

theorem trimmed_append_spec {α : Type} (H : List α) (e : α) :
    ((if (H ++ [e]).length > 100 then (H ++ [e]).drop ((H ++ [e]).length - 100)
      else H ++ [e]).getLast? = some e) ∧
    ((if (H ++ [e]).length > 100 then (H ++ [e]).drop ((H ++ [e]).length - 100)
      else H ++ [e]).length = min (H.length + 1) 100) ∧
    ((if (H ++ [e]).length > 100 then (H ++ [e]).drop ((H ++ [e]).length - 100)
      else H ++ [e]).dropLast <:+ H) := by
  have hl1 : (H ++ [e]).length = H.length + 1 := by simp
  by_cases hlen : (H ++ [e]).length > 100
  · rw [if_pos hlen]
    have hbig : H.length + 1 > 100 := by rw [hl1] at hlen; exact hlen
    have hk : (H ++ [e]).length - 100 ≤ H.length := by rw [hl1]; omega
    rw [List.drop_append_of_le_length hk]
    refine ⟨List.getLast?_concat _, ?_, ?_⟩
    · rw [List.length_append, List.length_drop, hl1]
      simp only [List.length_singleton]
      omega
    · rw [List.dropLast_concat]
      exact List.drop_suffix _ _
  · rw [if_neg hlen]
    have hsmall : ¬ H.length + 1 > 100 := by rw [hl1] at hlen; exact hlen
    refine ⟨List.getLast?_concat _, ?_, by rw [List.dropLast_concat]⟩
    rw [hl1]
    omega

/-- C2 (amended): on a product update whose incoming price differs (amount or
currency), exactly one entry is appended — the stored history ends with the
INCOMING price stamped `now`, grows to `min (old + 1) 100`, and everything
before the last entry is a suffix of the old history; an unchanged price
carries the history forward unchanged.  On a real-estate listing update an
entry is appended only when the AMOUNT differs (currency is ignored), and the
appended entry records the PREVIOUSLY stored price (amount and currency) at
`changedAt = now`, with no trimming; an unchanged amount carries the history
forward unchanged. -/
theorem price_history_append_semantics :
    (∀ (store : ProductStore) (p : Product) (now : Nat) (ex : StoredProduct),
      store.lookup (generateUniqueKey p.domain p.productId) = some ex →
      priceChanged ex.product.price p.price = true →
      ∃ h', ((upsertProduct store p now).lookup (generateUniqueKey p.domain p.productId)).map
          (fun st => st.priceHistory) = some h' ∧
        h'.getLast? = some { price := p.price, recordedAt := now } ∧
        h'.length = min (ex.priceHistory.length + 1) 100 ∧
        h'.dropLast <:+ ex.priceHistory) ∧
    (∀ (store : ProductStore) (p : Product) (now : Nat) (ex : StoredProduct),
      store.lookup (generateUniqueKey p.domain p.productId) = some ex →
      priceChanged ex.product.price p.price = false →
      ((upsertProduct store p now).lookup (generateUniqueKey p.domain p.productId)).map
        (fun st => st.priceHistory) = some ex.priceHistory) ∧
    (∀ (store : ListingStore) (l : Listing) (now : Nat) (ex : StoredListing),
      store.lookup (l.domain ++ ":" ++ l.listingId) = some ex →
      jsNumEq l.price.amount ex.listing.price.amount = false →
      ((upsertListing store l now).lookup (l.domain ++ ":" ++ l.listingId)).map
        (fun st => st.priceHistory) =
        some (ex.priceHistory ++ [{ amount := ex.listing.price.amount
                                    currency := ex.listing.price.currency
                                    changedAt := now }])) ∧
    (∀ (store : ListingStore) (l : Listing) (now : Nat) (ex : StoredListing),
      store.lookup (l.domain ++ ":" ++ l.listingId) = some ex →
      jsNumEq l.price.amount ex.listing.price.amount = true →
      ((upsertListing store l now).lookup (l.domain ++ ":" ++ l.listingId)).map
        (fun st => st.priceHistory) = some ex.priceHistory) := by
  refine ⟨?_, ?_, ?_, ?_⟩
  · intro store p now ex hlk hch
    rw [upsertProduct]
    rw [hlk]
    rw [storePut_lookup_self]
    refine ⟨_, rfl, ?_, ?_, ?_⟩
    · simp only [hch, if_true]
      exact (trimmed_append_spec ex.priceHistory { price := p.price, recordedAt := now }).1
    · simp only [hch, if_true]
      exact (trimmed_append_spec ex.priceHistory { price := p.price, recordedAt := now }).2.1
    · simp only [hch, if_true]
      exact (trimmed_append_spec ex.priceHistory { price := p.price, recordedAt := now }).2.2
  · intro store p now ex hlk hch
    rw [upsertProduct]
    rw [hlk]
    rw [storePut_lookup_self]
    simp [hch]
  · intro store l now ex hlk hne
    rw [upsertListing]
    rw [hlk]
    rw [storePut_lookup_self]
    simp [hne]
  · intro store l now ex hlk heq
    rw [upsertListing]
    rw [hlk]
    rw [storePut_lookup_self]
    simp [heq]

/-- Witness for the amended C2 theorem at concrete inputs: a changed product
price appends the incoming price; an identical product price leaves history
alone; a changed listing amount appends the old price; an equal listing
amount (even with a different currency) leaves history alone. -/
theorem price_history_append_semantics_witness :
    (∃ h', ((upsertProduct (upsertProduct [] (exampleProduct 10) 1) (exampleProduct 12) 2).lookup
        "d:a").map (fun st => st.priceHistory) = some h' ∧
      h'.getLast? = some { price := { amount := 12, currency := "USD" }, recordedAt := 2 } ∧
      h'.length =
        min (([{ price := { amount := (10 : ℚ), currency := "USD" }, recordedAt := 1 }] :
          List PricePoint).length + 1) 100 ∧
      h'.dropLast <:+ [{ price := { amount := (10 : ℚ), currency := "USD" }, recordedAt := 1 }]) ∧
    (((upsertProduct (upsertProduct [] (exampleProduct 10) 1) (exampleProduct 10) 2).lookup
        "d:a").map (fun st => st.priceHistory) =
      some [{ price := { amount := (10 : ℚ), currency := "USD" }, recordedAt := 1 }]) ∧
    (((upsertListing (upsertListing [] (exampleListing 10 "PEN") 1) (exampleListing 12 "PEN")
        2).lookup "urbania.pe:l").map (fun st => st.priceHistory) =
      some (([] : List ListingPricePoint) ++
        [{ amount := some 10, currency := .str "PEN", changedAt := 2 }])) ∧
    (((upsertListing (upsertListing [] (exampleListing 10 "PEN") 1) (exampleListing 10 "USD")
        2).lookup "urbania.pe:l").map (fun st => st.priceHistory) = some []) := by
  refine ⟨?_, ?_, ?_, ?_⟩
  · exact price_history_append_semantics.1 (upsertProduct [] (exampleProduct 10) 1)
      (exampleProduct 12) 2
      { product := exampleProduct 10, uniqueKey := "d:a", firstSeenAt := 1, lastSeenAt := 1
        lastUpdatedAt := 1
        priceHistory := [{ price := { amount := 10, currency := "USD" }, recordedAt := 1 }]
        version := 1 } rfl rfl
  · exact price_history_append_semantics.2.1 (upsertProduct [] (exampleProduct 10) 1)
      (exampleProduct 10) 2
      { product := exampleProduct 10, uniqueKey := "d:a", firstSeenAt := 1, lastSeenAt := 1
        lastUpdatedAt := 1
        priceHistory := [{ price := { amount := 10, currency := "USD" }, recordedAt := 1 }]
        version := 1 } rfl rfl
  · exact price_history_append_semantics.2.2.1 (upsertListing [] (exampleListing 10 "PEN") 1)
      (exampleListing 12 "PEN") 2
      { listing := exampleListing 10 "PEN", uniqueKey := "urbania.pe:l", firstSeenAt := 1
        lastSeenAt := 1, lastUpdatedAt := 1, priceHistory := [], version := none } rfl rfl
  · exact price_history_append_semantics.2.2.2 (upsertListing [] (exampleListing 10 "PEN") 1)
      (exampleListing 10 "USD") 2
      { listing := exampleListing 10 "PEN", uniqueKey := "urbania.pe:l", firstSeenAt := 1
        lastSeenAt := 1, lastUpdatedAt := 1, priceHistory := [], version := none } rfl rfl

/-- Counterexample to C2 as stated, on the real-estate kind: upserting the
same amount under a different currency appends NO entry (the claim demands
exactly one for a currency change), and upserting a different amount appends
an entry carrying the PREVIOUSLY stored amount 10, not the incoming 12. -/
theorem listing_price_history_departs_from_claim :
    (((upsertListing (upsertListing [] (exampleListing 10 "PEN") 1) (exampleListing 10 "USD")
        2).lookup "urbania.pe:l").map (fun st => st.priceHistory.length) = some 0) ∧
    (((upsertListing (upsertListing [] (exampleListing 10 "PEN") 1) (exampleListing 12 "PEN")
        2).lookup "urbania.pe:l").map (fun st => st.priceHistory.map (fun e => e.amount)) =
      some [some 10]) ∧
    some (10 : ℚ) ≠ some (12 : ℚ) := by
  exact ⟨rfl, rfl, by decide⟩

set_option maxRecDepth 100000 in
/-- C4 (amended): product upserts preserve the bound `priceHistory.length ≤
100` store-wide, and after 150 successive distinct-price upserts of one
product key the stored history is exactly the 100 most recent prices
(amounts 51..150, each at its upsert time).  Real-estate histories are NEVER
trimmed: the same 150-upsert experiment leaves 149 entries (the insert
contributes none and each of the 149 updates appends one). -/
theorem price_history_bound_semantics :
    (∀ (store : ProductStore) (p : Product) (now : Nat),
      (∀ k st, store.lookup k = some st → st.priceHistory.length ≤ 100) →
      ∀ k st, (upsertProduct store p now).lookup k = some st →
        st.priceHistory.length ≤ 100) ∧
    productScenarioHistory = some expectedScenarioHistory ∧
    ((listingScenarioStore.lookup "urbania.pe:l1").map (fun st => st.priceHistory.length) =
      some 149) := by
  refine ⟨?_, by decide, by decide⟩
  intro store p now hinv k st hlk
  rw [upsertProduct] at hlk
  cases hl : store.lookup (generateUniqueKey p.domain p.productId) with
  | none =>
      rw [hl] at hlk
      rcases storePut_lookup_or _ _ _ _ _ hlk with heq | hold
      · rw [heq]
        simp
      · exact hinv k st hold
  | some ex =>
      rw [hl] at hlk
      rcases storePut_lookup_or _ _ _ _ _ hlk with heq | hold
      · rw [heq]
        by_cases hch : priceChanged ex.product.price p.price = true
        · simp only [hch, if_true]
          exact (trimmed_append_spec ex.priceHistory
            { price := p.price, recordedAt := now }).2.1.trans_le (Nat.min_le_right _ _)
        · rw [Bool.not_eq_true] at hch
          simp only [hch, Bool.false_eq_true, if_false]
          exact hinv _ ex hl
      · exact hinv k st hold

/-- Witness for the bound-preservation part of the amended C4 theorem: one
upsert into the empty store (whose bound hypothesis holds vacuously) leaves
the freshly stored document within the 100-entry bound. -/
theorem price_history_bound_semantics_witness :
    ({ product := exampleProduct 10, uniqueKey := "d:a", firstSeenAt := 1, lastSeenAt := 1
       lastUpdatedAt := 1
       priceHistory := [{ price := { amount := 10, currency := "USD" }, recordedAt := 1 }]
       version := 1 } : StoredProduct).priceHistory.length ≤ 100 :=
  price_history_bound_semantics.1 [] (exampleProduct 10) 1
    (fun _ _ h => absurd h (by simp [List.lookup])) "d:a" _ rfl

set_option maxRecDepth 100000 in
/-- Counterexample to C4 as stated: in the `real_estate_listings` collection
the history is never trimmed — after the claim's own experiment of 150
successive distinct-price upserts of one key, the stored `priceHistory` has
149 entries, not 100 (and exceeds the claimed 100-entry cap). -/
theorem listing_history_grows_past_bound :
    ((listingScenarioStore.lookup "urbania.pe:l1").map (fun st => st.priceHistory.length) =
      some 149) ∧
    (149 : Nat) ≠ 100 ∧ ¬ (149 : Nat) ≤ 100 := by
  exact ⟨by decide, by decide, by decide⟩

/-- C5 (amended): the job-store canonicalizer and the strategy-side
canonicalizer compute the same slug for every parseable URL whose hostname
(after `www.` stripping) does not have `ac` as its second-to-last label —
their only difference is that `ac` is in the job-store's common-SLD set and
not in the strategy-side one.  The Urbania strategy does not canonicalize at
all: the provenance domain it stores is the constant `urbania.pe`, whatever
the URL. -/
theorem domain_canonicalizer_agreement :
    (∀ (url h : String), hostnameOf url = some h →
      ((domainParts h).length < 3 ∨
        (domainParts h).getD ((domainParts h).length - 2) "" ≠ "ac") →
      storageExtractDomain url = baseExtractDomain url) ∧
    (∀ (item : Json) (url : String) (now : Nat),
      (parseJsonListing item url now).domain = "urbania.pe") := by
  constructor
  · intro url h hh hcond
    simp only [storageExtractDomain, baseExtractDomain, hh]
    by_cases h3 : (domainParts h).length ≥ 3
    · rw [if_pos h3, if_pos h3]
      have hne : (domainParts h).getD ((domainParts h).length - 2) "" ≠ "ac" := by
        rcases hcond with hlt | hne
        · omega
        · exact hne
      rw [contains_sld _ hne]
    · rw [if_neg h3, if_neg h3]
      by_cases h2 : (domainParts h).length = 2
      · rw [if_pos h2]
      · rw [if_neg h2]
  · intro item url now
    rfl

/-- Witness for the amended C5 theorem: on `https://sub.example.com/x` (whose
second-to-last hostname label is `example`, not `ac`) the two canonicalizers
agree, and a concrete parsed Urbania listing carries the constant provenance
domain. -/
theorem domain_canonicalizer_agreement_witness :
    (storageExtractDomain "https://sub.example.com/x" =
      baseExtractDomain "https://sub.example.com/x") ∧
    (parseJsonListing (.obj [("id", .str "5")]) "https://urbania.pe/alquiler" 3).domain =
      "urbania.pe" := by
  constructor
  · exact domain_canonicalizer_agreement.1 "https://sub.example.com/x" "sub.example.com" rfl
      (Or.inr (by decide))
  · exact domain_canonicalizer_agreement.2 (.obj [("id", .str "5")])
      "https://urbania.pe/alquiler" 3

/-- Counterexample to C5 as stated: the two canonicalizers disagree on
`https://keio.ac.jp/` (`keio` versus `ac`, because only the job-store's SLD
set contains `ac`), and for a Urbania URL the job-store tags the raw job
with `urbania` while the strategy stores the provenance domain `urbania.pe`,
so entities do NOT key into the same partition as the raw job record. -/
theorem domain_canonicalizers_diverge :
    storageExtractDomain "https://keio.ac.jp/" = "keio" ∧
    baseExtractDomain "https://keio.ac.jp/" = "ac" ∧
    ("keio" : String) ≠ "ac" ∧
    storageExtractDomain "https://urbania.pe/depa" = "urbania" ∧
    (parseJsonListing (.obj [("id", .str "7")]) "https://urbania.pe/depa" 0).domain =
      "urbania.pe" ∧
    ("urbania" : String) ≠ "urbania.pe" := by
  exact ⟨by decide, by decide, by decide, by decide, rfl, by decide⟩

/-- C6 (confirmed): both orchestrators are total functions of their inputs —
they never propagate an exception.  Every outcome is a well-formed result:
either a success carrying the chosen strategy's entities (with no errors),
or — for the real-estate orchestrator — a no-strategy report, or an
empty-entity result whose `errors` list is exactly
`["Extraction error: <the originating exception's message>"]`, preserving
the message. -/
theorem extractors_never_raise :
    (∀ (strategies : List (Strategy Product)) (fallbackStrategy : Strategy Product)
      (data : Json) (url : String) (jobId : Option String) (now : Nat),
      (∃ name entities,
        extractProducts strategies fallbackStrategy data url jobId now =
          { entities := entities
            metadata := { totalExtracted := entities.length, source := url, extractedAt := now
                          strategyUsed := some name, errors := [] } }) ∨
      (∃ msg,
        extractProducts strategies fallbackStrategy data url jobId now =
          { entities := []
            metadata := { totalExtracted := 0, source := url, extractedAt := now
                          strategyUsed := none
                          errors := ["Extraction error: " ++ msg] } })) ∧
    (∀ (strategies : List (Strategy Listing)) (data : Json) (url : String)
      (jobId : Option String) (now : Nat),
      (∃ name entities,
        extractListings strategies data url jobId now =
          { entities := entities
            metadata := { totalExtracted := entities.length, source := url, extractedAt := now
                          strategyUsed := some name, errors := [] } }) ∨
      extractListings strategies data url jobId now =
        { entities := []
          metadata := { totalExtracted := 0, source := url, extractedAt := now
                        strategyUsed := none
                        errors := ["No strategy found for this real estate site"] } } ∨
      (∃ msg,
        extractListings strategies data url jobId now =
          { entities := []
            metadata := { totalExtracted := 0, source := url, extractedAt := now
                          strategyUsed := none
                          errors := ["Extraction error: " ++ msg] } })) := by
  constructor
  · intro strategies fallbackStrategy data url jobId now
    cases hrun : productExtractRun strategies fallbackStrategy data url jobId with
    | ok pair =>
        obtain ⟨name, entities⟩ := pair
        left
        exact ⟨name, entities, by rw [extractProducts, hrun]⟩
    | error msg =>
        right
        exact ⟨msg, by rw [extractProducts, hrun]⟩
  · intro strategies data url jobId now
    cases hrun : realEstateExtractRun strategies data url jobId with
    | ok found =>
        cases found with
        | none =>
            right; left
            rw [extractListings, hrun]
        | some pair =>
            obtain ⟨name, entities⟩ := pair
            left
            exact ⟨name, entities, by rw [extractListings, hrun]⟩
    | error msg =>
        right; right
        exact ⟨msg, by rw [extractListings, hrun]⟩

theorem except_bind_ok {e a b : Type} (x : a) (f : a → Except e b) :
    (Except.ok x >>= f) = f x := rfl

theorem except_pure_eq {e a : Type} (x : a) : (pure x : Except e a) = .ok x := rfl

theorem except_bind_error {e a b : Type} (err : e) (f : a → Except e b) :
    (Except.error err >>= f) = .error err := rfl

theorem except_map_ok {e a b : Type} (f : a → b) (x : a) :
    (f <$> (Except.ok x : Except e a)) = .ok (f x) := rfl

theorem except_map_error {e a b : Type} (f : a → b) (err : e) :
    (f <$> (Except.error err : Except e a)) = .error err := rfl

/-- C7 (amended): strategy selection picks the first registered strategy in
registration order whose predicate claims the payload.  The PRODUCT
orchestrator falls back to the unconditional generic strategy when none
matches, so with the service's actual registration (`Falabella` first,
`Generic` fallback) the reported strategy is `Falabella` exactly when its
predicate claims the payload and `Generic` otherwise.  The REAL-ESTATE
orchestrator has NO fallback: when no registered strategy matches (for any
behaviour of the abstracted Urbania extractor) it reports no strategy and
the error `No strategy found for this real estate site` — still a result,
never a raised parse failure. -/
theorem strategy_selection_semantics :
    (∀ (E : Type) (pre post : List (Strategy E)) (s : Strategy E) (data : Json) (url : String),
      (∀ t ∈ pre, t.canHandle data url = .ok false) → s.canHandle data url = .ok true →
      findStrategy (pre ++ s :: post) data url = .ok (some s)) ∧
    (∀ (E : Type) (strategies : List (Strategy E)) (data : Json) (url : String),
      (∀ t ∈ strategies, t.canHandle data url = .ok false) →
      findStrategy strategies data url = .ok none) ∧
    (∀ (data : Json) (url : String) (jobId : Option String) (now : Nat),
      (productExtractorService data url jobId now).metadata.strategyUsed =
        some (if falabellaCanHandle data url then "Falabella" else "Generic")) ∧
    (∀ (e : Json → String → Option String → Except String (List Listing))
      (data : Json) (url : String) (jobId : Option String) (now : Nat),
      urbaniaCanHandle data url = false →
      realEstateExtractorService e data url jobId now =
        { entities := []
          metadata := { totalExtracted := 0, source := url, extractedAt := now
                        strategyUsed := none
                        errors := ["No strategy found for this real estate site"] } }) := by
  refine ⟨?_, ?_, ?_, ?_⟩
  · intro E pre post s data url hpre hs
    induction pre with
    | nil => simp [findStrategy, hs, except_bind_ok, except_pure_eq]
    | cons t rest ih =>
        have ht : t.canHandle data url = .ok false := hpre t (by simp)
        have hrest : ∀ u ∈ rest, u.canHandle data url = .ok false := by
          intro u hu
          exact hpre u (by simp [hu])
        simpa [findStrategy, ht, except_bind_ok] using ih hrest
  · intro E strategies data url hall
    induction strategies with
    | nil => rfl
    | cons t rest ih =>
        have ht : t.canHandle data url = .ok false := hall t (by simp)
        have hrest : ∀ u ∈ rest, u.canHandle data url = .ok false := by
          intro u hu
          exact hall u (by simp [hu])
        simpa [findStrategy, ht, except_bind_ok] using ih hrest
  · intro data url jobId now
    by_cases hc : falabellaCanHandle data url
    · simp [productExtractorService, extractProducts, productExtractRun, findStrategy,
        falabellaStrategy, genericStrategy, hc, except_bind_ok, except_map_ok]
    · simp [productExtractorService, extractProducts, productExtractRun, findStrategy,
        falabellaStrategy, genericStrategy, hc, except_bind_ok, except_map_ok]
  · intro e data url jobId now hc
    simp [realEstateExtractorService, extractListings, realEstateExtractRun, findStrategy,
      urbaniaStrategyWith, hc, except_bind_ok, except_map_ok, except_pure_eq]

/-- Witness for the amended C7 theorem at concrete inputs: the Falabella
strategy, registered first and claiming the scenario payload, is selected
and reported; with no registered real-estate strategy claiming a
non-Urbania URL, selection yields none and the orchestrator reports the
no-strategy error. -/
theorem strategy_selection_semantics_witness :
    (findStrategy ([] ++ falabellaStrategy :: []) falabellaScenarioPayload
      "https://www.falabella.com.pe/falabella-pe/search" =
      .ok (some falabellaStrategy)) ∧
    (findStrategy [urbaniaStrategyWith urbaniaExtractOpaque] Json.null
      "https://example.com/x" = .ok none) ∧
    ((productExtractorService falabellaScenarioPayload
      "https://www.falabella.com.pe/falabella-pe/search" (some "job-1") 7).metadata.strategyUsed =
      some "Falabella") ∧
    (realEstateExtractorService urbaniaExtractOpaque Json.null "https://example.com/x" none 0 =
      { entities := []
        metadata := { totalExtracted := 0, source := "https://example.com/x", extractedAt := 0
                      strategyUsed := none
                      errors := ["No strategy found for this real estate site"] } }) := by
  refine ⟨?_, ?_, ?_, ?_⟩
  · exact strategy_selection_semantics.1 Product [] [] falabellaStrategy
      falabellaScenarioPayload "https://www.falabella.com.pe/falabella-pe/search"
      (fun t ht => absurd ht (List.not_mem_nil t)) rfl
  · refine strategy_selection_semantics.2.1 Listing [urbaniaStrategyWith urbaniaExtractOpaque]
      Json.null "https://example.com/x" ?_
    intro t ht
    rw [List.mem_singleton.mp ht]
    rfl
  · exact strategy_selection_semantics.2.2.1 falabellaScenarioPayload
      "https://www.falabella.com.pe/falabella-pe/search" (some "job-1") 7
  · exact strategy_selection_semantics.2.2.2 urbaniaExtractOpaque Json.null
      "https://example.com/x" none 0 rfl

/-- Counterexample to C7 as stated: in the real-estate orchestrator no
unconditional fallback exists — on a payload no registered strategy claims,
no strategy is used at all (`strategyUsed` is absent and the metadata
reports the no-strategy error instead of a fallback's output). -/
theorem real_estate_orchestrator_lacks_fallback :
    (realEstateExtractorService urbaniaExtractOpaque Json.null "https://example.com/x" none
      0).metadata.strategyUsed = none ∧
    (realEstateExtractorService urbaniaExtractOpaque Json.null "https://example.com/x" none
      0).metadata.errors = ["No strategy found for this real estate site"] ∧
    (realEstateExtractorService urbaniaExtractOpaque Json.null "https://example.com/x" none
      0).entities = [] := by
  exact ⟨rfl, rfl, rfl⟩

/-- C8 (amended): currency inference is NOT uniform across strategies.  The
Falabella strategy (without a `prices` array) does run the symbol table over
the stringified price field; the Generic strategy consults only the explicit
`currency` field and then the separate `priceSymbol` field, defaulting to
`USD` without ever inspecting the price string; the Urbania JSON parser uses
the explicit `price.currency` field or the constant `PEN`. -/
theorem currency_inference_semantics :
    (∀ (item : Json) (s : String),
      jget item "prices" = none → jget item "price" = some (.str s) → s ≠ "" →
      falabellaExtractPrice item =
        .ok { amount := parsePriceStr s, currency := currencyLookup s }) ∧
    (∀ (item : Json) (c : String) (pr : ProductPrice),
      jget item "currency" = some (.str c) → c ≠ "" →
      genericExtractPrice item = .ok pr → pr.currency = c) ∧
    (∀ (item : Json) (pr : ProductPrice),
      jget item "currency" = none → jget item "priceSymbol" = none →
      genericExtractPrice item = .ok pr → pr.currency = "USD") ∧
    (∀ (item : Json) (url : String) (now : Nat),
      jget2 item "price" "currency" = none →
      (parseJsonListing item url now).price.currency = .str "PEN") := by
  refine ⟨?_, ?_, ?_, ?_⟩
  · intro item s h1 h2 hs
    simp [falabellaExtractPrice, h1, h2, jsOr, truthy, jsString, hs, except_pure_eq]
  · intro item c pr hcur hc hok
    rw [genericExtractPrice, hcur] at hok
    have htc : truthy (.str c) = true := by simp [truthy, hc]
    simp only [truthyO, htc, if_true, Option.getD_some, except_bind_ok, except_pure_eq] at hok
    cases hp : parsePrice (jsOr (jget item "price") (jsOr (jget item "currentPrice")
        (jsOr (jget item "salePrice") (jsOr (jget item "amount") (.num 0))))) with
    | error u =>
        rw [hp, except_bind_error] at hok
        exact absurd hok (by simp)
    | ok a =>
        rw [hp, except_bind_ok] at hok
        have hpr := (Except.ok.inj hok).symm
        rw [hpr]
  · intro item pr hcur hsym hok
    rw [genericExtractPrice, hcur, hsym] at hok
    simp only [truthyO, Bool.false_eq_true, if_false, except_bind_ok, except_pure_eq] at hok
    cases hp : parsePrice (jsOr (jget item "price") (jsOr (jget item "currentPrice")
        (jsOr (jget item "salePrice") (jsOr (jget item "amount") (.num 0))))) with
    | error u =>
        rw [hp, except_bind_error] at hok
        exact absurd hok (by simp)
    | ok a =>
        rw [hp, except_bind_ok] at hok
        have hpr := (Except.ok.inj hok).symm
        rw [hpr]
  · intro item url now h
    simp [parseJsonListing, h, jsOr]

/-- Witness for the amended C8 theorem at concrete records: the Falabella
path maps the `S/` symbol in a bare price string to `PEN`; the Generic
strategy honours an explicit `EUR` currency field, and defaults to `USD`
when neither `currency` nor `priceSymbol` is present; the Urbania parser
defaults to `PEN`. -/
theorem currency_inference_semantics_witness :
    (falabellaExtractPrice (.obj [("price", .str "S/ 88")]) =
      .ok { amount := parsePriceStr "S/ 88", currency := currencyLookup "S/ 88" }) ∧
    currencyLookup "S/ 88" = "PEN" ∧
    (({ amount := 5, currency := "EUR" } : ProductPrice).currency = "EUR") ∧
    (({ amount := 7, currency := "USD" } : ProductPrice).currency = "USD") ∧
    ((parseJsonListing (.obj [("id", .str "1")]) "https://urbania.pe/x" 0).price.currency =
      .str "PEN") := by
  refine ⟨?_, by decide, ?_, ?_, ?_⟩
  · exact currency_inference_semantics.1 (.obj [("price", .str "S/ 88")]) "S/ 88" rfl rfl
      (by decide)
  · exact currency_inference_semantics.2.1 (.obj [("currency", .str "EUR"), ("price", .num 5)])
      "EUR" { amount := 5, currency := "EUR" } rfl (by decide) rfl
  · exact currency_inference_semantics.2.2.1 (.obj [("price", .num 7)])
      { amount := 7, currency := "USD" } rfl rfl rfl
  · exact currency_inference_semantics.2.2.2 (.obj [("id", .str "1")]) "https://urbania.pe/x" 0
      rfl

/-- Counterexample to C8 as stated: a record whose only price information is
the price string `S/ 120.00` — bearing the known symbol `S/`, which the
shared table maps to `PEN` — and which has no explicit currency field, is
processed by the Generic strategy into an entity with currency `USD`, not
the symbol's mapped code. -/
theorem generic_price_string_symbol_ignored :
    ((genericExtract
        (.arr [.obj [("id", .str "a1"), ("name", .str "Widget"), ("price", .str "S/ 120.00")]])
        "https://example.com/x" none).map (fun p => p.price.currency) = ["USD"]) ∧
    currencyLookup "S/ 120.00" = "PEN" ∧
    ("USD" : String) ≠ "PEN" := by
  exact ⟨rfl, by decide, by decide⟩

/-- C9 (confirmed): running the spec's Falabella payload through the product
orchestrator with ANY URL containing `falabella.com` yields exactly one
entity with productId `"123"`, price amount 999, currency `PEN`, and the
metadata reports the `Falabella` strategy. -/
theorem falabella_end_to_end_scenario :
    ∀ (url : String) (jobId : Option String) (now : Nat),
      strIncludes url "falabella.com" = true →
      (productExtractProducts url jobId now).entities.length = 1 ∧
      (productExtractProducts url jobId now).entities.map (fun p => p.productId) =
        [.str "123"] ∧
      (productExtractProducts url jobId now).entities.map (fun p => p.price.amount) = [999] ∧
      (productExtractProducts url jobId now).entities.map (fun p => p.price.currency) =
        ["PEN"] ∧
      (productExtractProducts url jobId now).metadata.strategyUsed = some "Falabella" ∧
      (productExtractProducts url jobId now).metadata.totalExtracted = 1 := by
  intro url jobId now hurl
  have hch : falabellaCanHandle falabellaScenarioPayload url = true := by
    simp [falabellaCanHandle, hurl]
  have hex : falabellaExtract falabellaScenarioPayload url jobId =
      [{ productId := .str "123", name := .str "Phone X"
         price := { amount := 999, currency := "PEN" }
         domain := baseExtractDomain url }] := rfl
  simp only [productExtractProducts, productExtractorService, extractProducts,
    productExtractRun, findStrategy, falabellaStrategy, hch, if_true, except_bind_ok,
    except_pure_eq, Option.getD_some, hex]
  simp

/-- Witness for the C9 theorem at the concrete scenario URL. -/
theorem falabella_end_to_end_scenario_witness :
    falabellaScenarioResult.entities.length = 1 ∧
    falabellaScenarioResult.entities.map (fun p => p.productId) = [.str "123"] ∧
    falabellaScenarioResult.entities.map (fun p => p.price.amount) = [999] ∧
    falabellaScenarioResult.entities.map (fun p => p.price.currency) = ["PEN"] ∧
    falabellaScenarioResult.metadata.strategyUsed = some "Falabella" ∧
    falabellaScenarioResult.metadata.totalExtracted = 1 :=
  falabella_end_to_end_scenario "https://www.falabella.com.pe/falabella-pe/search"
    (some "job-1") 7 rfl

/-- C10 (amended): an entity produced by the Generic strategy's normalizer
from a record that passes `looksLikeProduct` has a non-empty `productId` and
a non-empty `name`, and its later `uniqueKey` has a non-empty entity-id
component after the colon — PROVIDED the winning id-alias and name-alias
values are not arrays; likewise for the Falabella normalizer on a record
passing its filter (truthy `productId` and `displayName`).  (The proviso is
necessary: a truthy empty array passes the filters yet stringifies to the
empty string — see the counterexample.) -/
theorem entity_identity_nonempty_semantics :
    (∀ (item : Json) (domain url : String) (jobId : Option String) (p : Product),
      genericNormalizeProduct item domain url jobId = .ok p →
      looksLikeProduct item = true →
      (∀ es, genericIdValue item ≠ .arr es) →
      (∀ es, genericNameValue item ≠ .arr es) →
      (∃ s, p.productId = .str s ∧ s ≠ "") ∧ (∃ s, p.name = .str s ∧ s ≠ "") ∧
      ∀ d, generateUniqueKey d p.productId ≠ d ++ ":") ∧
    (∀ (item : Json) (domain url : String) (jobId : Option String) (p : Product),
      falabellaNormalizeProduct item domain url jobId = .ok p →
      truthyO (jget item "productId") = true →
      truthyO (jget item "displayName") = true →
      (∀ es, jget item "productId" ≠ some (.arr es)) →
      (∀ es, jget item "displayName" ≠ some (.arr es)) →
      jsString p.productId ≠ "" ∧ jsString p.name ≠ "" ∧
      ∀ d, generateUniqueKey d p.productId ≠ d ++ ":") := by
  constructor
  · intro item domain url jobId p hok hlook hidarr hnamearr
    rw [genericNormalizeProduct] at hok
    cases hp : genericExtractPrice item with
    | error u =>
        rw [hp, except_bind_error] at hok
        exact absurd hok (by simp)
    | ok pr =>
        rw [hp, except_bind_ok, except_pure_eq] at hok
        obtain rfl := (Except.ok.inj hok).symm
        have hid : truthy (genericIdValue item) = true := by
          have hlook2 := hlook
          simp only [looksLikeProduct, Bool.and_eq_true, Bool.or_eq_true] at hlook2
          obtain ⟨⟨_, hid5⟩, _⟩ := hlook2
          simp only [genericIdValue, truthy_jsOr, Bool.or_eq_true]
          rcases hid5 with ((((h | h) | h) | h) | h) <;> simp [h]
        have hnm : truthy (genericNameValue item) = true := by
          simp only [genericNameValue, truthy_jsOr]
          simp [truthy]
        refine ⟨⟨jsString (genericIdValue item), rfl,
            jsString_ne_empty_of_truthy _ hid hidarr⟩,
          ⟨jsString (genericNameValue item), rfl,
            jsString_ne_empty_of_truthy _ hnm hnamearr⟩, ?_⟩
        intro d
        exact string_append_ne_self_of_ne_empty (d ++ ":") (jsString (genericIdValue item))
          (jsString_ne_empty_of_truthy _ hid hidarr)
  · intro item domain url jobId p hok hidT hdispT hidarr hdisparr
    rw [falabellaNormalizeProduct] at hok
    cases hp : falabellaExtractPrice item with
    | error u =>
        rw [hp, except_bind_error] at hok
        exact absurd hok (by simp)
    | ok pr =>
        rw [hp, except_bind_ok, except_pure_eq] at hok
        obtain rfl := (Except.ok.inj hok).symm
        cases hv : jget item "productId" with
        | none => rw [hv] at hidT; exact absurd hidT (by simp [truthyO])
        | some v =>
            cases hw : jget item "displayName" with
            | none => rw [hw] at hdispT; exact absurd hdispT (by simp [truthyO])
            | some w =>
                rw [hv] at hidT
                rw [hw] at hdispT
                have htv : truthy v = true := hidT
                have htw : truthy w = true := hdispT
                have hvarr : ∀ es, v ≠ .arr es := by
                  intro es he
                  exact hidarr es (by rw [hv, he])
                have hwarr : ∀ es, w ≠ .arr es := by
                  intro es he
                  exact hdisparr es (by rw [hw, he])
                refine ⟨?_, ?_, ?_⟩
                · rw [jsOr_of_truthy v _ htv]
                  exact jsString_ne_empty_of_truthy v htv hvarr
                · rw [jsOr_of_truthy w _ htw]
                  exact jsString_ne_empty_of_truthy w htw hwarr
                · intro d
                  rw [jsOr_of_truthy v _ htv]
                  exact string_append_ne_self_of_ne_empty (d ++ ":") (jsString v)
                    (jsString_ne_empty_of_truthy v htv hvarr)

/-- Witness for the amended C10 theorem at concrete records with string
id/name fields, for both normalizers, including the non-degenerate
`uniqueKey` at a concrete domain. -/
theorem entity_identity_nonempty_semantics_witness :
    ((∃ s, ({ productId := .str "a1", name := .str "Widget"
              price := { amount := 0, currency := "USD" }, domain := "example" } :
          Product).productId = .str s ∧ s ≠ "") ∧
      (∃ s, ({ productId := .str "a1", name := .str "Widget"
               price := { amount := 0, currency := "USD" }, domain := "example" } :
          Product).name = .str s ∧ s ≠ "")) ∧
    generateUniqueKey "example" (Json.str "a1") ≠ "example" ++ ":" ∧
    jsString (Json.str "123") ≠ "" ∧
    generateUniqueKey "falabella" (Json.str "123") ≠ "falabella" ++ ":" := by
  have h1 := entity_identity_nonempty_semantics.1
    (.obj [("id", .str "a1"), ("name", .str "Widget")]) "example" "https://example.com/x" none
    { productId := .str "a1", name := .str "Widget"
      price := { amount := 0, currency := "USD" }, domain := "example" }
    rfl rfl (fun _ h => Json.noConfusion h) (fun _ h => Json.noConfusion h)
  have h2 := entity_identity_nonempty_semantics.2
    (.obj [("productId", .str "123"), ("displayName", .str "Phone")]) "falabella"
    "https://www.falabella.com.pe/x" none
    { productId := .str "123", name := .str "Phone"
      price := { amount := 0, currency := "USD" }, domain := "falabella" }
    rfl rfl rfl (fun _ h => Json.noConfusion (Option.some.inj h))
    (fun _ h => Json.noConfusion (Option.some.inj h))
  exact ⟨⟨h1.1, h1.2.1⟩, h1.2.2 "example", h2.1, h2.2.2 "falabella"⟩

/-- Counterexample to C10 as stated: the record `{id: [], name: "Widget"}`
passes `looksLikeProduct` (an empty array is truthy), yet `String([])` is
the empty string, so the Generic strategy emits an entity whose `productId`
is empty and whose `uniqueKey` has an empty entity-id component after the
colon. -/
theorem generic_empty_array_id_yields_empty_productId :
    ((genericExtract (.arr [.obj [("id", .arr []), ("name", .str "Widget")]])
        "https://example.com/x" none).map (fun p => p.productId) = [.str ""]) ∧
    ((genericExtract (.arr [.obj [("id", .arr []), ("name", .str "Widget")]])
        "https://example.com/x" none).map (fun p => generateUniqueKey "example" p.productId) =
      ["example:"]) := by
  exact ⟨rfl, rfl⟩
